import Mathlib

/-!
Shallow embedding of the write-back cache store of the `lil` URL shortener
(`internal/store/store.go` and `internal/store/expire.go`).

Modelling choices:
* Time is `Nat`. Go `time.Now().After(t)` is the strict `t < now`; the SQL
  filter `expires_at > datetime('now')` is `now < t`; the reaper filter
  `expires_at <= datetime('now')` is `t ≤ now`.
* The Go map `cache map[string]models.URLData` is a list of records keyed by
  `shortCode`; map assignment replaces an existing binding, map delete filters
  the key out.
* The SQLite table `urls` (`short_code TEXT PRIMARY KEY`) is a list of rows.
  `doFlush` builds one multi-row `INSERT` and runs it inside one transaction:
  a primary-key conflict aborts the statement and the transaction rolls back.
* The randomness of `generateRandomString` (`rand.Int32N(62)` per character)
  is a caller-supplied stream `rnds : Nat → List (Fin 62)` of index lists;
  entry `0` stands for the first candidate (length `shortURLLen`), later
  entries for the retry candidates (length 6). The collision loop of
  `CreateShortURL` spins until a candidate is absent from the cache, so the
  embedding receives the proof that the stream contains a free candidate and
  returns the first one.
* The metrics gauge `lil_urls_stored_total` is the `gauge` field, set to the
  cache size exactly at the calls of `URLsStoredGauge.Set` in the source.
* The buffer-size / timer trigger moves the write buffer into a batch
  (`triggerFlush`); the flush worker applies a batch to the table
  (`doFlush` / `flushWithRetry`). Transient storage failures of the retry
  loop are injected through an oracle `env : Nat → Bool` (attempt `i` hits a
  connection-level error iff `env i = true`).
-/

structure URLData where
  url : String
  title : String
  shortCode : String
  createdAt : Nat
  expiresAt : Option Nat
deriving DecidableEq

structure StoreState where
  cache : List URLData
  db : List URLData
  writeBuf : List URLData
  gauge : Nat
deriving DecidableEq

/-- `ErrNotExist` and the ad-hoc `errors.New("slug already exists")`. -/
inductive StoreErr where
  | notExist
  | slugExists
deriving DecidableEq

/-- Go map read `s.cache[code]`. -/
def cacheFind (c : List URLData) (code : String) : Option URLData :=
  c.find? (fun u => u.shortCode == code)

/-- Go map assignment `s.cache[code] = u`. -/
def cacheInsert (c : List URLData) (u : URLData) : List URLData :=
  if (cacheFind c u.shortCode).isSome then
    c.map (fun v => if v.shortCode == u.shortCode then u else v)
  else
    c ++ [u]

/-- Go map removal `delete(s.cache, code)`. -/
def cacheErase (c : List URLData) (code : String) : List URLData :=
  c.filter (fun u => !(u.shortCode == code))

/-- Point query of the durable table by primary key. -/
def dbFind (db : List URLData) (code : String) : Option URLData :=
  db.find? (fun u => u.shortCode == code)

/-- `DELETE FROM urls WHERE short_code = ?`. -/
def dbDelete (db : List URLData) (code : String) : List URLData :=
  db.filter (fun u => !(u.shortCode == code))

/-- The 62-character alphabet of `generateRandomString`. -/
def charset : List Char :=
  "abcdefghijklmnopqrstuvwxyzABCDEFGHIJKLMNOPQRSTUVWXYZ0123456789".toList

/-- `generateRandomString`, with the per-character draws of `rand.Int32N(62)`
supplied as a list of indices into the alphabet. -/
def generateRandomString (idxs : List (Fin 62)) : String :=
  String.mk (idxs.map (fun i =>
    charset.get ⟨i.1, lt_of_lt_of_eq i.isLt (by decide : (62 : Nat) = charset.length)⟩))

/-- The record built by `CreateShortURL` (`urlData` in the source). -/
def mkURLData (now : Nat) (url title code : String) (expiry : Nat) : URLData :=
  { url := url, title := title, shortCode := code, createdAt := now,
    expiresAt := if 0 < expiry then some (now + expiry) else none }

/-- Cache write, gauge update and write-buffer append done by `CreateShortURL`. -/
def applyCreate (s : StoreState) (u : URLData) : StoreState :=
  { s with cache := cacheInsert s.cache u,
           gauge := (cacheInsert s.cache u).length,
           writeBuf := s.writeBuf ++ [u] }

/-- The candidate at position `n` of the random stream is free in the cache. -/
def freeAt (c : List URLData) (rnds : Nat → List (Fin 62)) (n : Nat) : Prop :=
  cacheFind c (generateRandomString (rnds n)) = none

instance (c : List URLData) (rnds : Nat → List (Fin 62)) : DecidablePred (freeAt c rnds) :=
  fun n => inferInstanceAs (Decidable (cacheFind c (generateRandomString (rnds n)) = none))

/-- `Store.CreateShortURL`: slug-collision check against the cache, or code
generation looping until a candidate is free; then cache insert, gauge update
and write-buffer append. The durable table is untouched. -/
def CreateShortURL (now : Nat) (url title slug : String) (expiry : Nat)
    (rnds : Nat → List (Fin 62)) (s : StoreState)
    (hfree : slug = "" → ∃ n, freeAt s.cache rnds n) :
    Except StoreErr (String × StoreState) :=
  if h : slug = "" then
    let code := generateRandomString (rnds (Nat.find (hfree h)))
    Except.ok (code, applyCreate s (mkURLData now url title code expiry))
  else
    if (cacheFind s.cache slug).isSome then
      Except.error StoreErr.slugExists
    else
      Except.ok (slug, applyCreate s (mkURLData now url title slug expiry))

/-- `Store.GetRedirectData`: cache-only read; a record whose expiry is strictly
in the past is evicted from the cache, deleted from the table, and reported as
absent. -/
def GetRedirectData (now : Nat) (s : StoreState) (code : String) :
    Except StoreErr URLData × StoreState :=
  match cacheFind s.cache code with
  | none => (Except.error StoreErr.notExist, s)
  | some u =>
    match u.expiresAt with
    | some t =>
      if t < now then
        (Except.error StoreErr.notExist,
          { s with cache := cacheErase s.cache code,
                   gauge := (cacheErase s.cache code).length,
                   db := dbDelete s.db code })
      else (Except.ok u, s)
    | none => (Except.ok u, s)

/-- `Store.DeleteURL`: delete from the durable table first; only on a
confirmed affected row remove the code from the cache, else `ErrNotExist`. -/
def DeleteURL (s : StoreState) (code : String) : Except StoreErr Unit × StoreState :=
  if (dbFind s.db code).isSome then
    (Except.ok (),
      { s with db := dbDelete s.db code,
               cache := cacheErase s.cache code,
               gauge := (cacheErase s.cache code).length })
  else
    (Except.error StoreErr.notExist, s)

/-- The multi-row `INSERT INTO urls ... VALUES (...),(...)` of `doFlush`:
rows are inserted left to right and an existing primary key aborts the whole
statement. -/
def insertRows (db : List URLData) : List URLData → Except Unit (List URLData)
  | [] => Except.ok db
  | u :: rest =>
    if (dbFind db u.shortCode).isSome then Except.error ()
    else insertRows (db ++ [u]) rest

/-- `Store.doFlush`: the batch insert inside one transaction; on error the
transaction rolls back and the old table survives. -/
def doFlush (db : List URLData) (urls : List URLData) : Except Unit (List URLData) :=
  insertRows db urls

/-- Outcome of one flush applied to the store: commit on success, rollback on
error. -/
def applyFlush (s : StoreState) (urls : List URLData) : StoreState :=
  match doFlush s.db urls with
  | Except.ok db2 => { s with db := db2 }
  | Except.error _ => s

/-- `Store.triggerFlush`: capture the write buffer as a batch and clear it. -/
def triggerFlush (s : StoreState) : StoreState × List URLData :=
  ({ s with writeBuf := [] }, s.writeBuf)

structure RetryResult where
  state : StoreState
  attempts : Nat
  loggedFailure : Option Nat
deriving DecidableEq

/-- One attempt of the retry loop: `env i = true` injects a transient storage
failure into attempt `i`; otherwise `doFlush` runs and its own error also
fails the attempt. A failed attempt leaves the table unchanged (rollback). -/
def attemptFlush (env : Nat → Bool) (i : Nat) (s : StoreState) (urls : List URLData) :
    Option StoreState :=
  if env i then none
  else
    match doFlush s.db urls with
    | Except.ok db2 => some { s with db := db2 }
    | Except.error _ => none

/-- The retry loop of `flushWithRetry`: `i` is the attempt index, `r` the
remaining attempts; on the last failing attempt the batch size is logged
(`loggedFailure`) and the batch is dropped. -/
def retryLoop (env : Nat → Bool) (urls : List URLData) :
    StoreState → Nat → Nat → RetryResult
  | s, _, 0 => ⟨s, 0, none⟩
  | s, i, r + 1 =>
    match attemptFlush env i s urls with
    | some s2 => ⟨s2, 1, none⟩
    | none =>
      if r = 0 then ⟨s, 1, some urls.length⟩
      else
        let rest := retryLoop env urls s (i + 1) r
        ⟨rest.state, rest.attempts + 1, rest.loggedFailure⟩

/-- `Store.flushWithRetry` with `maxRetries = 3`. -/
def flushWithRetry (env : Nat → Bool) (s : StoreState) (urls : List URLData) : RetryResult :=
  retryLoop env urls s 0 3

/-- Reaper row filter `expires_at IS NOT NULL AND expires_at <= datetime('now')`. -/
def isExpiredRow (now : Nat) (u : URLData) : Bool :=
  match u.expiresAt with
  | some t => decide (t ≤ now)
  | none => false

/-- `Store.removeExpiredURLs`: one reaper sweep — a returning delete of the
expired rows, removal of each returned code from the cache, gauge update. -/
def removeExpiredURLs (now : Nat) (s : StoreState) : StoreState :=
  let codes := (s.db.filter (fun u => isExpiredRow now u)).map (fun u => u.shortCode)
  let cache2 := s.cache.filter (fun u => !(codes.contains u.shortCode))
  { s with db := s.db.filter (fun u => !(isExpiredRow now u)),
           cache := cache2,
           gauge := cache2.length }

/-- Listing row filter `expires_at IS NULL OR expires_at > datetime('now')`. -/
def notExpiredRow (now : Nat) (u : URLData) : Bool :=
  match u.expiresAt with
  | some t => decide (now < t)
  | none => true

/-- `ORDER BY created_at DESC`. -/
def createdGE (a b : URLData) : Prop :=
  b.createdAt ≤ a.createdAt

instance : DecidableRel createdGE :=
  fun a b => inferInstanceAs (Decidable (b.createdAt ≤ a.createdAt))

instance : IsTotal URLData createdGE :=
  ⟨fun a b => Nat.le_total b.createdAt a.createdAt⟩

instance : IsTrans URLData createdGE :=
  ⟨fun _ _ _ h1 h2 => Nat.le_trans h2 h1⟩

/-- `Store.GetURLs`: durable-table-only listing with the non-expired filter,
newest-first order, `LIMIT perPage OFFSET (page-1)*perPage`, and the count of
all non-expired rows. -/
def GetURLs (now page perPage : Nat) (db : List URLData) : List URLData × Nat :=
  let live := db.filter (fun u => notExpiredRow now u)
  (((List.insertionSort createdGE live).drop ((page - 1) * perPage)).take perPage,
   live.length)

/-! Concrete stores and records used to evaluate the operations on explicit
inputs. -/

/-- The store right after startup with an empty table. -/
def emptyStore : StoreState := ⟨[], [], [], 0⟩

def wU1 : URLData := mkURLData 0 "https://a" "t" "abc" 0

def wS1 : StoreState := applyCreate emptyStore wU1

/-- A cached and durable record that expired at time 5. -/
def wExp : URLData := ⟨"https://e", "te", "exp", 0, some 5⟩

def wSExp : StoreState := ⟨[wExp], [wExp], [], 1⟩

/-- A cached and durable record without expiry. -/
def wDel : URLData := ⟨"https://d", "td", "del", 0, none⟩

def wSDel : StoreState := ⟨[wDel], [wDel], [], 1⟩

/-- A record that is cached and buffered but not yet durable. -/
def wMem : URLData := ⟨"https://m", "tm", "mem", 2, none⟩

def wSMem : StoreState := ⟨[wMem], [], [wMem], 1⟩

/-- Two distinct records sharing the primary key `dup`. -/
def dupRow : URLData := ⟨"https://a", "", "dup", 0, none⟩

def dupRow2 : URLData := ⟨"https://b", "", "dup", 5, none⟩

/-- Failure oracle: every flush attempt hits a storage error. -/
def wEnvFail : Nat → Bool := fun _ => true

def wBatch : List URLData := [⟨"https://x", "", "x1", 0, none⟩]

/-- A random stream whose every entry is the one-character candidate at
alphabet index 0. -/
def wRnds : Nat → List (Fin 62) := fun _ => [⟨0, by decide⟩]

/-- Fifteen durable rows without expiry, created at times 0..14. -/
def wListDb : List URLData := (List.range 15).map (fun i => ⟨"https://l", "", "c", i, none⟩)

/-- Interleaving that makes the cache and the table disagree on code `X`:
create `X` with expiry 5 at time 0, capture the batch, let the lazy-expiry
lookup at time 10 evict it, re-create `X` without expiry, then apply the
delayed flush of the old batch. -/
def s9a : StoreState :=
  match CreateShortURL 0 "https://old" "" "X" 5 (fun _ => []) emptyStore
      (fun he => absurd he (by decide)) with
  | Except.ok p => p.2
  | Except.error _ => emptyStore

def s9b : StoreState := (triggerFlush s9a).1

def batch9 : List URLData := (triggerFlush s9a).2

def s9c : StoreState := (GetRedirectData 10 s9b "X").2

def s9d : StoreState :=
  match CreateShortURL 10 "https://new" "" "X" 0 (fun _ => []) s9c
      (fun he => absurd he (by decide)) with
  | Except.ok p => p.2
  | Except.error _ => s9c

def s9e : StoreState := applyFlush s9d batch9

/-! Helper lemmas about the map and table primitives. -/

theorem cacheFind_append_self (c : List URLData) (u : URLData)
    (h : cacheFind c u.shortCode = none) :
    cacheFind (c ++ [u]) u.shortCode = some u := by
  induction c with
  | nil => simp [cacheFind]
  | cons v c ih =>
    unfold cacheFind at h ⊢
    by_cases hv : (v.shortCode == u.shortCode) = true
    · rw [List.find?_cons_of_pos (p := fun w => w.shortCode == u.shortCode) (a := v) _ hv] at h
      exact absurd h (by simp)
    · rw [List.cons_append,
        List.find?_cons_of_neg (p := fun w => w.shortCode == u.shortCode) (a := v) _ hv]
      rw [List.find?_cons_of_neg (p := fun w => w.shortCode == u.shortCode) (a := v) _ hv] at h
      exact ih h

theorem cacheFind_map_self (c : List URLData) (u : URLData)
    (h : (cacheFind c u.shortCode).isSome = true) :
    cacheFind (c.map (fun v => if v.shortCode == u.shortCode then u else v)) u.shortCode
      = some u := by
  induction c with
  | nil => simp [cacheFind] at h
  | cons v c ih =>
    unfold cacheFind at h ⊢
    by_cases hv : (v.shortCode == u.shortCode) = true
    · rw [List.map_cons, if_pos hv,
        List.find?_cons_of_pos (p := fun w => w.shortCode == u.shortCode) (a := u) _ (by simp)]
    · rw [List.map_cons, if_neg hv,
        List.find?_cons_of_neg (p := fun w => w.shortCode == u.shortCode) (a := v) _ hv]
      rw [List.find?_cons_of_neg (p := fun w => w.shortCode == u.shortCode) (a := v) _ hv] at h
      exact ih h

theorem cacheFind_cacheInsert_self (c : List URLData) (u : URLData) :
    cacheFind (cacheInsert c u) u.shortCode = some u := by
  unfold cacheInsert
  by_cases h : (cacheFind c u.shortCode).isSome
  · rw [if_pos h]; exact cacheFind_map_self c u h
  · rw [if_neg h]
    exact cacheFind_append_self c u (Option.not_isSome_iff_eq_none.mp h)

theorem find_filter_out (l : List URLData) (code : String) :
    (l.filter (fun u => !(u.shortCode == code))).find? (fun u => u.shortCode == code)
      = none := by
  induction l with
  | nil => simp
  | cons v l ih =>
    by_cases hv : (v.shortCode == code) = true
    · rw [List.filter_cons, if_neg (by simp [hv])]
      exact ih
    · rw [List.filter_cons, if_pos (by simp [hv]),
        List.find?_cons_of_neg (p := fun w => w.shortCode == code) (a := v) _ hv]
      exact ih

theorem cacheFind_cacheErase (c : List URLData) (code : String) :
    cacheFind (cacheErase c code) code = none :=
  find_filter_out c code

theorem dbFind_dbDelete (db : List URLData) (code : String) :
    dbFind (dbDelete db code) code = none :=
  find_filter_out db code

/-- Inversion of a successful `CreateShortURL`: the stored record and the
freshness of the returned code against the pre-state cache. -/
theorem createShortURL_ok (now : Nat) (url title slug : String) (expiry : Nat)
    (rnds : Nat → List (Fin 62)) (s : StoreState)
    (hfree : slug = "" → ∃ n, freeAt s.cache rnds n)
    (code : String) (s2 : StoreState)
    (h : CreateShortURL now url title slug expiry rnds s hfree = Except.ok (code, s2)) :
    s2 = applyCreate s (mkURLData now url title code expiry) ∧
    cacheFind s.cache code = none := by
  unfold CreateShortURL at h
  split at h
  · rename_i hslug
    simp only [Except.ok.injEq, Prod.mk.injEq] at h
    obtain ⟨hcode, hs⟩ := h
    subst hcode
    exact ⟨hs.symm, Nat.find_spec (hfree hslug)⟩
  · rename_i hslug
    by_cases hex : (cacheFind s.cache slug).isSome
    · rw [if_pos hex] at h
      exact absurd h (by simp)
    · rw [if_neg hex] at h
      simp only [Except.ok.injEq, Prod.mk.injEq] at h
      obtain ⟨hcode, hs⟩ := h
      subst hcode
      exact ⟨hs.symm, Option.not_isSome_iff_eq_none.mp hex⟩

/-- Discharges the free-candidate obligation when a slug is supplied. -/
theorem hfree_of_ne {slug : String} (h : ¬ slug = "") (c : List URLData)
    (rnds : Nat → List (Fin 62)) : slug = "" → ∃ n, freeAt c rnds n :=
  fun he => absurd he h

/-- C1: a successful create (non-empty target, no expiry or expiry not yet
passed at lookup time) is immediately visible: a lookup of the returned code
in the resulting state returns the stored record, with the same target and
title, without the record having been flushed to the table. -/
theorem c1_read_your_write (now now2 : Nat) (url title slug : String) (expiry : Nat)
    (rnds : Nat → List (Fin 62)) (s : StoreState)
    (hfree : slug = "" → ∃ n, freeAt s.cache rnds n) (code : String) (s2 : StoreState)
    (hok : CreateShortURL now url title slug expiry rnds s hfree = Except.ok (code, s2))
    (_hurl : url ≠ "")
    (hlive : 0 < expiry → ¬ (now + expiry < now2)) :
    GetRedirectData now2 s2 code = (Except.ok (mkURLData now url title code expiry), s2) ∧
    (mkURLData now url title code expiry).url = url ∧
    (mkURLData now url title code expiry).title = title ∧
    s2.db = s.db := by
  obtain ⟨hs2, -⟩ := createShortURL_ok now url title slug expiry rnds s hfree code s2 hok
  subst hs2
  refine ⟨?_, rfl, rfl, rfl⟩
  have hfind := cacheFind_cacheInsert_self s.cache (mkURLData now url title code expiry)
  unfold GetRedirectData
  have hcache : (applyCreate s (mkURLData now url title code expiry)).cache
      = cacheInsert s.cache (mkURLData now url title code expiry) := rfl
  rw [hcache]
  have hsc : (mkURLData now url title code expiry).shortCode = code := rfl
  rw [hsc] at hfind
  rw [hfind]
  by_cases hexp : 0 < expiry
  · have hnl := hlive hexp
    simp [mkURLData, hexp, hnl]
  · simp [mkURLData, hexp]

/-- Witness for C1 at a concrete create with slug `abc` and no expiry. -/
theorem c1_read_your_write_witness :
    CreateShortURL 0 "https://a" "t" "abc" 0 (fun _ => []) emptyStore
        (hfree_of_ne (by decide) emptyStore.cache (fun _ => [])) = Except.ok ("abc", wS1) ∧
    ("https://a" : String) ≠ "" ∧
    (0 < 0 → ¬ (0 + 0 < 0)) ∧
    GetRedirectData 0 wS1 "abc" = (Except.ok wU1, wS1) ∧
    wU1.url = "https://a" ∧ wU1.title = "t" ∧ wS1.db = emptyStore.db := by
  have hok : CreateShortURL 0 "https://a" "t" "abc" 0 (fun _ => []) emptyStore
      (hfree_of_ne (by decide) emptyStore.cache (fun _ => [])) = Except.ok ("abc", wS1) := rfl
  have h := c1_read_your_write 0 0 "https://a" "t" "abc" 0 (fun _ => []) emptyStore
    (hfree_of_ne (by decide) emptyStore.cache (fun _ => [])) "abc" wS1 hok
    (by decide) (by decide)
  exact ⟨hok, by decide, by decide, h.1, h.2.1, h.2.2.1, h.2.2.2⟩

/-- C2: a lookup of a cached record whose expiry is strictly in the past
returns `NotFound`, removes the record from the cache (updating the gauge)
and issues a delete of the code against the table. -/
theorem c2_expired_lookup (now : Nat) (s : StoreState) (code : String) (u : URLData) (t : Nat)
    (hc : cacheFind s.cache code = some u) (ht : u.expiresAt = some t) (hp : t < now) :
    GetRedirectData now s code =
      (Except.error StoreErr.notExist,
        { s with cache := cacheErase s.cache code,
                 gauge := (cacheErase s.cache code).length,
                 db := dbDelete s.db code }) := by
  unfold GetRedirectData
  rw [hc]
  simp [ht, hp]

/-- Witness for C2 at a record that expired at time 5, looked up at time 10. -/
theorem c2_expired_lookup_witness :
    cacheFind wSExp.cache "exp" = some wExp ∧ wExp.expiresAt = some 5 ∧ 5 < 10 ∧
    GetRedirectData 10 wSExp "exp" =
      (Except.error StoreErr.notExist,
        { wSExp with cache := cacheErase wSExp.cache "exp",
                     gauge := (cacheErase wSExp.cache "exp").length,
                     db := dbDelete wSExp.db "exp" }) :=
  ⟨by decide, by decide, by decide,
   c2_expired_lookup 10 wSExp "exp" wExp 5 (by decide) (by decide) (by decide)⟩

/-- C3: delete is table-first. Without a durable row it returns `NotFound`
and changes nothing; with a durable row it removes the code from the table
and the cache, after which a lookup and a second delete both return
`NotFound`. -/
theorem c3_delete_semantics (now : Nat) (s : StoreState) (code : String) :
    (dbFind s.db code = none → DeleteURL s code = (Except.error StoreErr.notExist, s)) ∧
    ((dbFind s.db code).isSome = true →
      DeleteURL s code =
        (Except.ok (),
          { s with db := dbDelete s.db code, cache := cacheErase s.cache code,
                   gauge := (cacheErase s.cache code).length }) ∧
      (GetRedirectData now
          { s with db := dbDelete s.db code, cache := cacheErase s.cache code,
                   gauge := (cacheErase s.cache code).length } code).1
        = Except.error StoreErr.notExist ∧
      (DeleteURL
          { s with db := dbDelete s.db code, cache := cacheErase s.cache code,
                   gauge := (cacheErase s.cache code).length } code).1
        = Except.error StoreErr.notExist) := by
  constructor
  · intro h
    simp [DeleteURL, h]
  · intro h
    refine ⟨by simp [DeleteURL, h], ?_, ?_⟩
    · simp [GetRedirectData, cacheFind_cacheErase]
    · simp [DeleteURL, dbFind_dbDelete]

/-- Witness for C3: delete of an absent code leaves the store unchanged,
delete of a durable code removes it from both layers. -/
theorem c3_delete_semantics_witness :
    dbFind wSDel.db "nope" = none ∧
    DeleteURL wSDel "nope" = (Except.error StoreErr.notExist, wSDel) ∧
    (dbFind wSDel.db "del").isSome = true ∧
    DeleteURL wSDel "del" =
      (Except.ok (),
        { wSDel with db := dbDelete wSDel.db "del", cache := cacheErase wSDel.cache "del",
                     gauge := (cacheErase wSDel.cache "del").length }) :=
  ⟨by decide, (c3_delete_semantics 0 wSDel "nope").1 (by decide), by decide,
   ((c3_delete_semantics 0 wSDel "del").2 (by decide)).1⟩

/-- C10: for a record present in the cache but not yet flushed to the table,
delete returns `NotFound` and changes nothing, and a subsequent lookup still
returns the record. -/
theorem c10_unflushed_delete (now : Nat) (s : StoreState) (code : String) (u : URLData)
    (hc : cacheFind s.cache code = some u)
    (hdb : dbFind s.db code = none)
    (hlive : ∀ t, u.expiresAt = some t → ¬ t < now) :
    DeleteURL s code = (Except.error StoreErr.notExist, s) ∧
    GetRedirectData now s code = (Except.ok u, s) := by
  refine ⟨by simp [DeleteURL, hdb], ?_⟩
  cases hexp : u.expiresAt with
  | none => simp [GetRedirectData, hc, hexp]
  | some t => simp [GetRedirectData, hc, hexp, hlive t hexp]

/-- Witness for C10 at a cached, buffered, not yet durable record. -/
theorem c10_unflushed_delete_witness :
    cacheFind wSMem.cache "mem" = some wMem ∧
    dbFind wSMem.db "mem" = none ∧
    DeleteURL wSMem "mem" = (Except.error StoreErr.notExist, wSMem) ∧
    GetRedirectData 5 wSMem "mem" = (Except.ok wMem, wSMem) := by
  have h := c10_unflushed_delete 5 wSMem "mem" wMem (by decide) (by decide)
    (fun t ht => nomatch ht)
  exact ⟨by decide, by decide, h.1, h.2⟩

/-- Counterexample for C4: the cache still holds the record for slug `exp`,
its expiry 5 is strictly past at time 10, yet creating with slug `exp` fails
with `slugExists` — creation does not succeed merely because the earlier
record has expired. -/
theorem c4_counterexample :
    wExp.expiresAt = some 5 ∧ (5 : Nat) < 10 ∧
    cacheFind wSExp.cache "exp" = some wExp ∧
    CreateShortURL 10 "https://b" "tb" "exp" 0 (fun _ => []) wSExp
        (hfree_of_ne (by decide) wSExp.cache (fun _ => []))
      = Except.error StoreErr.slugExists :=
  ⟨rfl, by decide, by decide, rfl⟩

/-- C4 (amended): create with an explicit slug fails with `slugExists`
whenever any record with that slug is present in the cache — live or expired
but not yet evicted — and succeeds exactly when the slug is absent from the
cache, in particular right after the lazy-expiry eviction performed by a
lookup of the expired record. -/
theorem c4_amended_slug_reuse (now : Nat) (url title slug : String) (expiry : Nat)
    (rnds : Nat → List (Fin 62)) (s : StoreState) (hslug : ¬ slug = "") :
    ((cacheFind s.cache slug).isSome = true →
      CreateShortURL now url title slug expiry rnds s (hfree_of_ne hslug s.cache rnds)
        = Except.error StoreErr.slugExists) ∧
    (cacheFind s.cache slug = none →
      CreateShortURL now url title slug expiry rnds s (hfree_of_ne hslug s.cache rnds)
        = Except.ok (slug, applyCreate s (mkURLData now url title slug expiry))) ∧
    (∀ u t s2, cacheFind s.cache slug = some u → u.expiresAt = some t → t < now →
      (GetRedirectData now s slug).2 = s2 →
      CreateShortURL now url title slug expiry rnds s2 (hfree_of_ne hslug s2.cache rnds)
        = Except.ok (slug, applyCreate s2 (mkURLData now url title slug expiry))) := by
  have key : ∀ (s3 : StoreState), cacheFind s3.cache slug = none →
      CreateShortURL now url title slug expiry rnds s3 (hfree_of_ne hslug s3.cache rnds)
        = Except.ok (slug, applyCreate s3 (mkURLData now url title slug expiry)) := by
    intro s3 h3
    unfold CreateShortURL
    rw [dif_neg hslug, if_neg (by simp [h3])]
  refine ⟨?_, key s, ?_⟩
  · intro h
    unfold CreateShortURL
    rw [dif_neg hslug, if_pos h]
  · intro u t s2 hu ht hlt hs2
    have hstate : (GetRedirectData now s slug).2
        = { s with cache := cacheErase s.cache slug,
                   gauge := (cacheErase s.cache slug).length,
                   db := dbDelete s.db slug } := by
      simp [GetRedirectData, hu, ht, hlt]
    have hcache : s2.cache = cacheErase s.cache slug := by
      rw [← hs2, hstate]
    exact key s2 (by rw [hcache]; exact cacheFind_cacheErase s.cache slug)

/-- Witness for C4 (amended): the three branches at concrete stores. -/
theorem c4_amended_slug_reuse_witness :
    (cacheFind wSExp.cache "exp").isSome = true ∧
    CreateShortURL 10 "https://b" "tb" "exp" 0 wRnds wSExp
        (hfree_of_ne (by decide) wSExp.cache wRnds) = Except.error StoreErr.slugExists ∧
    cacheFind emptyStore.cache "exp" = none ∧
    CreateShortURL 10 "https://b" "tb" "exp" 0 wRnds emptyStore
        (hfree_of_ne (by decide) emptyStore.cache wRnds)
      = Except.ok ("exp", applyCreate emptyStore (mkURLData 10 "https://b" "tb" "exp" 0)) ∧
    CreateShortURL 10 "https://b" "tb" "exp" 0 wRnds ((GetRedirectData 10 wSExp "exp").2)
        (hfree_of_ne (by decide) ((GetRedirectData 10 wSExp "exp").2).cache wRnds)
      = Except.ok ("exp", applyCreate ((GetRedirectData 10 wSExp "exp").2)
          (mkURLData 10 "https://b" "tb" "exp" 0)) :=
  ⟨by decide,
   (c4_amended_slug_reuse 10 "https://b" "tb" "exp" 0 wRnds wSExp (by decide)).1 (by decide),
   by decide,
   (c4_amended_slug_reuse 10 "https://b" "tb" "exp" 0 wRnds emptyStore (by decide)).2.1
     (by decide),
   (c4_amended_slug_reuse 10 "https://b" "tb" "exp" 0 wRnds wSExp (by decide)).2.2
     wExp 5 ((GetRedirectData 10 wSExp "exp").2) (by decide) (by decide) (by decide) rfl⟩

/-- A successful batch insert appends exactly the batch to the table. -/
theorem insertRows_ok_append (urls : List URLData) : ∀ db db2,
    insertRows db urls = Except.ok db2 → db2 = db ++ urls := by
  induction urls with
  | nil =>
    intro db db2 h
    rw [insertRows] at h
    cases h
    simp
  | cons u rest ih =>
    intro db db2 h
    rw [insertRows] at h
    by_cases hu : (dbFind db u.shortCode).isSome = true
    · rw [if_pos hu] at h
      exact absurd h (by simp)
    · rw [if_neg hu] at h
      have hres := ih (db ++ [u]) db2 h
      simpa using hres

theorem dbFind_append_eq_none (db1 db2 : List URLData) (code : String) :
    dbFind (db1 ++ db2) code = none ↔ dbFind db1 code = none ∧ dbFind db2 code = none := by
  simp only [dbFind, List.find?_eq_none, List.mem_append]
  constructor
  · intro h
    exact ⟨fun x hx => h x (Or.inl hx), fun x hx => h x (Or.inr hx)⟩
  · rintro ⟨h1, h2⟩ x (hx | hx)
    · exact h1 x hx
    · exact h2 x hx

theorem dbFind_singleton_eq_none (u : URLData) (code : String) :
    dbFind [u] code = none ↔ ¬ u.shortCode = code := by
  simp [dbFind, List.find?_eq_none]

/-- The batch insert succeeds exactly when the batch codes are pairwise
distinct and none of them already has a row in the table. -/
theorem insertRows_ok_iff (urls : List URLData) : ∀ db,
    (∃ db2, insertRows db urls = Except.ok db2) ↔
      ((urls.map (fun u => u.shortCode)).Nodup ∧
       ∀ u ∈ urls, dbFind db u.shortCode = none) := by
  induction urls with
  | nil =>
    intro db
    simp [insertRows]
  | cons u rest ih =>
    intro db
    by_cases hu : (dbFind db u.shortCode).isSome = true
    · have : ¬ dbFind db u.shortCode = none := by
        intro hn
        rw [hn] at hu
        exact absurd hu (by simp)
      constructor
      · rintro ⟨db2, hdb2⟩
        rw [insertRows, if_pos hu] at hdb2
        exact absurd hdb2 (by simp)
      · rintro ⟨-, hall⟩
        exact absurd (hall u (by simp)) this
    · have hnone : dbFind db u.shortCode = none := by
        cases hx : dbFind db u.shortCode with
        | none => rfl
        | some v => rw [hx] at hu; exact absurd rfl hu
      have hstep : ∀ db2, insertRows db (u :: rest) = Except.ok db2 ↔
          insertRows (db ++ [u]) rest = Except.ok db2 := by
        intro db2
        rw [insertRows, if_neg hu]
      constructor
      · rintro ⟨db2, hdb2⟩
        have hrest := (ih (db ++ [u])).mp ⟨db2, (hstep db2).mp hdb2⟩
        obtain ⟨hnodup, hall⟩ := hrest
        refine ⟨?_, ?_⟩
        · rw [List.map_cons, List.nodup_cons]
          refine ⟨?_, hnodup⟩
          intro hmem
          obtain ⟨v, hv, hvc⟩ := List.mem_map.mp hmem
          have := (dbFind_append_eq_none db [u] v.shortCode).mp (hall v hv)
          exact ((dbFind_singleton_eq_none u v.shortCode).mp this.2) hvc.symm
        · intro v hv
          rcases List.mem_cons.mp hv with hvu | hvr
          · rw [hvu]; exact hnone
          · exact ((dbFind_append_eq_none db [u] v.shortCode).mp (hall v hvr)).1
      · rintro ⟨hnodup, hall⟩
        rw [List.map_cons, List.nodup_cons] at hnodup
        have hrest : (rest.map (fun w => w.shortCode)).Nodup ∧
            ∀ v ∈ rest, dbFind (db ++ [u]) v.shortCode = none := by
          refine ⟨hnodup.2, ?_⟩
          intro v hv
          refine (dbFind_append_eq_none db [u] v.shortCode).mpr
            ⟨hall v (List.mem_cons_of_mem u hv), ?_⟩
          refine (dbFind_singleton_eq_none u v.shortCode).mpr ?_
          intro hc
          exact hnodup.1 (List.mem_map.mpr ⟨v, hv, hc.symm⟩)
        obtain ⟨db2, hdb2⟩ := (ih (db ++ [u])).mpr hrest
        exact ⟨db2, (hstep db2).mpr hdb2⟩

/-- Counterexample for C5: the flush is a plain insert, not an upsert — a
batch containing a code that already has a durable row (or the same code
twice) makes `doFlush` fail instead of replacing the row. -/
theorem c5_counterexample :
    dbFind [dupRow] dupRow2.shortCode = some dupRow ∧
    doFlush [dupRow] [dupRow2] = Except.error () ∧
    doFlush [] [dupRow, dupRow2] = Except.error () :=
  ⟨by decide, rfl, rfl⟩

/-- C5 (amended): each batch is persisted by one multi-row INSERT inside one
transaction — on success all records of the batch become durable together
(appended to the table), and the statement succeeds exactly when all batch
codes are fresh and pairwise distinct; a conflicting or duplicated code makes
the whole batch fail (no replacement happens, the table keeps its old rows). -/
theorem c5_amended_flush_atomic_insert (db : List URLData) (urls : List URLData) :
    (∀ db2, insertRows db urls = Except.ok db2 → db2 = db ++ urls) ∧
    ((∃ db2, insertRows db urls = Except.ok db2) ↔
      ((urls.map (fun u => u.shortCode)).Nodup ∧
       ∀ u ∈ urls, dbFind db u.shortCode = none)) :=
  ⟨fun db2 h => insertRows_ok_append urls db db2 h, insertRows_ok_iff urls db⟩

/-- Witness for C5 (amended): a fresh singleton batch is appended. -/
theorem c5_amended_flush_atomic_insert_witness :
    insertRows [] wBatch = Except.ok ([] ++ wBatch) ∧
    (wBatch.map (fun u => u.shortCode)).Nodup := by
  have h := c5_amended_flush_atomic_insert [] wBatch
  obtain ⟨db2, hdb2⟩ := h.2.mpr (by decide)
  have he := h.1 db2 hdb2
  exact ⟨he ▸ hdb2, by decide⟩

/-- A successful attempt only rewrites the durable table. -/
theorem attemptFlush_some_frame (env : Nat → Bool) (i : Nat) (s s2 : StoreState)
    (urls : List URLData) (h : attemptFlush env i s urls = some s2) :
    s2.cache = s.cache ∧ s2.writeBuf = s.writeBuf := by
  unfold attemptFlush at h
  by_cases he : env i = true
  · rw [if_pos he] at h
    exact absurd h (by simp)
  · rw [if_neg he] at h
    cases hd : doFlush s.db urls with
    | ok db2 =>
      rw [hd] at h
      have := Option.some.inj h
      rw [← this]
      exact ⟨rfl, rfl⟩
    | error e =>
      rw [hd] at h
      exact absurd h (by simp)

/-- The retry loop makes at most `r` attempts. -/
theorem retryLoop_attempts_le (env : Nat → Bool) (urls : List URLData) :
    ∀ (r : Nat) (s : StoreState) (i : Nat), (retryLoop env urls s i r).attempts ≤ r := by
  intro r
  induction r with
  | zero => intro s i; exact Nat.le_refl 0
  | succ r ih =>
    intro s i
    rw [retryLoop]
    cases hA : attemptFlush env i s urls with
    | some s2 => simp
    | none =>
      by_cases hr : r = 0
      · simp [hr]
      · simp only [hr, if_neg hr]
        exact Nat.succ_le_succ (ih s (i + 1))

/-- The retry loop never touches the cache or the write buffer. -/
theorem retryLoop_cache_eq (env : Nat → Bool) (urls : List URLData) :
    ∀ (r : Nat) (s : StoreState) (i : Nat), (retryLoop env urls s i r).state.cache = s.cache := by
  intro r
  induction r with
  | zero => intro s i; rfl
  | succ r ih =>
    intro s i
    rw [retryLoop]
    cases hA : attemptFlush env i s urls with
    | some s2 =>
      simp only
      exact (attemptFlush_some_frame env i s s2 urls hA).1
    | none =>
      by_cases hr : r = 0
      · simp [hr]
      · simp only [hr, if_neg hr]
        exact ih s (i + 1)

/-- C6: the flush worker persists a batch with at most 3 attempts, never
touches the cache, and when all three attempts fail it logs the batch size,
keeps the store as it was (the records remain cache-only) and stops — the
batch is not re-queued and the result carries no error to any caller. -/
theorem c6_bounded_retry (env : Nat → Bool) (s : StoreState) (urls : List URLData) :
    (flushWithRetry env s urls).attempts ≤ 3 ∧
    (flushWithRetry env s urls).state.cache = s.cache ∧
    (attemptFlush env 0 s urls = none → attemptFlush env 1 s urls = none →
     attemptFlush env 2 s urls = none →
      flushWithRetry env s urls = ⟨s, 3, some urls.length⟩) := by
  refine ⟨retryLoop_attempts_le env urls 3 s 0, retryLoop_cache_eq env urls 3 s 0, ?_⟩
  intro h0 h1 h2
  unfold flushWithRetry
  rw [retryLoop, h0]
  rw [retryLoop, h1]
  rw [retryLoop, h2]
  rfl

/-- Witness for C6: with every attempt failing, three attempts happen, the
store is unchanged and the batch size 1 is logged. -/
theorem c6_bounded_retry_witness :
    attemptFlush wEnvFail 0 emptyStore wBatch = none ∧
    attemptFlush wEnvFail 1 emptyStore wBatch = none ∧
    attemptFlush wEnvFail 2 emptyStore wBatch = none ∧
    flushWithRetry wEnvFail emptyStore wBatch = ⟨emptyStore, 3, some 1⟩ :=
  ⟨rfl, rfl, rfl, (c6_bounded_retry wEnvFail emptyStore wBatch).2.2 rfl rfl rfl⟩

/-- Every character of a generated code is drawn from the alphabet. -/
theorem generateRandomString_chars (idxs : List (Fin 62)) :
    ∀ ch ∈ (generateRandomString idxs).toList, ch ∈ charset := by
  intro ch hch
  obtain ⟨i, _, hi⟩ := List.mem_map.mp hch
  rw [← hi]
  exact List.get_mem _ _ _

/-- Inserting a fresh code appends the record to the cache list. -/
theorem cacheInsert_fresh (c : List URLData) (u : URLData)
    (h : cacheFind c u.shortCode = none) : cacheInsert c u = c ++ [u] := by
  unfold cacheInsert
  rw [if_neg (by simp [h])]

theorem filter_code_length_one (c : List URLData) (u : URLData)
    (h : cacheFind c u.shortCode = none) :
    ((c ++ [u]).filter (fun v => v.shortCode == u.shortCode)).length = 1 := by
  rw [List.filter_append]
  have hnil : c.filter (fun v => v.shortCode == u.shortCode) = [] := by
    rw [List.filter_eq_nil_iff]
    exact List.find?_eq_none.mp h
  rw [hnil]
  simp

/-- C7: a create without a supplied slug never fails; the returned code uses
only the 62-character alphanumeric alphabet, was free in the cache at the
moment of the collision check, and is held by exactly one cache entry when
create returns. -/
theorem c7_generated_code (now : Nat) (url title : String) (expiry : Nat)
    (rnds : Nat → List (Fin 62)) (s : StoreState)
    (hfree : "" = "" → ∃ n, freeAt s.cache rnds n) :
    ∃ code s2,
      CreateShortURL now url title "" expiry rnds s hfree = Except.ok (code, s2) ∧
      (∀ ch ∈ code.toList, ch ∈ charset) ∧
      cacheFind s.cache code = none ∧
      (s2.cache.filter (fun u => u.shortCode == code)).length = 1 := by
  refine ⟨generateRandomString (rnds (Nat.find (hfree rfl))),
    applyCreate s (mkURLData now url title
      (generateRandomString (rnds (Nat.find (hfree rfl)))) expiry), ?_, ?_, ?_, ?_⟩
  · unfold CreateShortURL
    rw [dif_pos rfl]
  · exact generateRandomString_chars _
  · exact Nat.find_spec (hfree rfl)
  · have hfresh : cacheFind s.cache
        (mkURLData now url title
          (generateRandomString (rnds (Nat.find (hfree rfl)))) expiry).shortCode = none :=
      Nat.find_spec (hfree rfl)
    have hins := cacheInsert_fresh s.cache _ hfresh
    show ((cacheInsert s.cache _).filter _).length = 1
    rw [hins]
    exact filter_code_length_one s.cache _ hfresh

/-- Witness for C7 at a concrete random stream over the empty store. -/
theorem c7_generated_code_witness :
    freeAt emptyStore.cache wRnds 0 ∧
    (∃ code s2,
      CreateShortURL 3 "https://g" "tg" "" 0 wRnds emptyStore (fun _ => ⟨0, rfl⟩)
        = Except.ok (code, s2) ∧
      (∀ ch ∈ code.toList, ch ∈ charset) ∧
      cacheFind emptyStore.cache code = none ∧
      (s2.cache.filter (fun u => u.shortCode == code)).length = 1) :=
  ⟨rfl, c7_generated_code 3 "https://g" "tg" 0 wRnds emptyStore (fun _ => ⟨0, rfl⟩)⟩

/-- C8: listing reads the durable table only — it returns at most `perPage`
rows, all non-expired under the listing filter, sorted newest-created-first,
after skipping `(page-1)*perPage` rows; the returned total is the count of
all non-expired durable rows, so with 15 non-expired durable rows
`list(1, 10)` returns exactly 10 rows and total 15. -/
theorem c8_list_pagination (now page perPage : Nat) (db : List URLData) :
    (GetURLs now page perPage db).1.length ≤ perPage ∧
    (∀ u ∈ (GetURLs now page perPage db).1, notExpiredRow now u = true) ∧
    List.Sorted createdGE (GetURLs now page perPage db).1 ∧
    (GetURLs now page perPage db).2 = (db.filter (fun u => notExpiredRow now u)).length ∧
    ((db.filter (fun u => notExpiredRow now u)).length = 15 →
      (GetURLs now 1 10 db).1.length = 10) := by
  have hrep : (GetURLs now page perPage db).1
      = ((List.insertionSort createdGE (db.filter (fun u => notExpiredRow now u))).drop
          ((page - 1) * perPage)).take perPage := rfl
  have hsub : (GetURLs now page perPage db).1.Sublist
      (List.insertionSort createdGE (db.filter (fun u => notExpiredRow now u))) := by
    rw [hrep]
    exact (List.take_sublist _ _).trans (List.drop_sublist _ _)
  refine ⟨?_, ?_, ?_, rfl, ?_⟩
  · rw [hrep]
    exact List.length_take_le _ _
  · intro u hu
    have hmem : u ∈ List.insertionSort createdGE (db.filter (fun v => notExpiredRow now v)) :=
      hsub.subset hu
    have hlive : u ∈ db.filter (fun v => notExpiredRow now v) :=
      (List.perm_insertionSort createdGE _).subset hmem
    exact (List.mem_filter.mp hlive).2
  · exact List.Pairwise.sublist hsub (List.sorted_insertionSort createdGE _)
  · intro h15
    have h1 : (GetURLs now 1 10 db).1
        = (List.insertionSort createdGE (db.filter (fun u => notExpiredRow now u))).take 10 := by
      have : (GetURLs now 1 10 db).1
          = ((List.insertionSort createdGE (db.filter (fun u => notExpiredRow now u))).drop
              ((1 - 1) * 10)).take 10 := rfl
      rw [this]
      rfl
    rw [h1, List.length_take,
      (List.perm_insertionSort createdGE (db.filter (fun u => notExpiredRow now u))).length_eq,
      h15]
    decide

/-- Witness for C8 over fifteen non-expired durable rows. -/
theorem c8_list_pagination_witness :
    (wListDb.filter (fun u => notExpiredRow 100 u)).length = 15 ∧
    (GetURLs 100 1 10 wListDb).1.length = 10 ∧
    (GetURLs 100 1 10 wListDb).2 = 15 := by
  have h := c8_list_pagination 100 1 10 wListDb
  refine ⟨by decide, h.2.2.2.2 (by decide), ?_⟩
  rw [h.2.2.2.1]
  decide

theorem contains_iff_mem (l : List String) (a : String) : l.contains a = true ↔ a ∈ l := by
  rw [List.contains_iff_exists_mem_beq]
  constructor
  · rintro ⟨b, hb, hab⟩
    rw [eq_of_beq hab]
    exact hb
  · intro h
    exact ⟨a, h, by simp⟩

/-- Counterexample for C9: after the interleaving captured by `s9e` (delayed
flush of an expired old version of code `X` behind a fresh re-creation of
`X`), the cache holds a record for `X` with no expiry, yet the sweep at time
10 removes it from the cache, because the stale durable row under the same
code is expired and its returned code is deleted from the cache wholesale. -/
theorem c9_counterexample :
    mkURLData 10 "https://new" "" "X" 0 ∈ s9e.cache ∧
    (mkURLData 10 "https://new" "" "X" 0).expiresAt = none ∧
    ¬ mkURLData 10 "https://new" "" "X" 0 ∈ (removeExpiredURLs 10 s9e).cache := by
  decide

/-- C9 (amended): a successful sweep deletes from the table exactly the rows
whose expiry is non-null and not in the future; durable rows with null or
future expiry survive; a cache entry survives exactly when its code is not
among the returned expired codes (so a non-expired cache entry can be removed
when a stale expired durable row shares its code); the gauge is set to the
new cache size. -/
theorem c9_amended_reaper (now : Nat) (s : StoreState) :
    (removeExpiredURLs now s).db = s.db.filter (fun u => !(isExpiredRow now u)) ∧
    (∀ u ∈ s.db, isExpiredRow now u = false → u ∈ (removeExpiredURLs now s).db) ∧
    (∀ u ∈ (removeExpiredURLs now s).db, isExpiredRow now u = false) ∧
    (∀ u ∈ (removeExpiredURLs now s).cache,
      u ∈ s.cache ∧
      ¬ u.shortCode ∈ (s.db.filter (fun v => isExpiredRow now v)).map (fun v => v.shortCode)) ∧
    (∀ u ∈ s.cache,
      ¬ u.shortCode ∈ (s.db.filter (fun v => isExpiredRow now v)).map (fun v => v.shortCode) →
      u ∈ (removeExpiredURLs now s).cache) ∧
    (removeExpiredURLs now s).gauge = (removeExpiredURLs now s).cache.length := by
  have hcache : (removeExpiredURLs now s).cache
      = s.cache.filter (fun u =>
          !(((s.db.filter (fun v => isExpiredRow now v)).map (fun v => v.shortCode)).contains
            u.shortCode)) := rfl
  refine ⟨rfl, ?_, ?_, ?_, ?_, rfl⟩
  · intro u hu hexp
    exact List.mem_filter.mpr ⟨hu, by simp [hexp]⟩
  · intro u hu
    have hb := (List.mem_filter.mp hu).2
    simpa using hb
  · intro u hu
    rw [hcache] at hu
    have h := List.mem_filter.mp hu
    refine ⟨h.1, ?_⟩
    intro hmem
    have hcc := (contains_iff_mem _ _).mpr hmem
    have hb := h.2
    rw [hcc] at hb
    simp at hb
  · intro u hu hnot
    rw [hcache]
    refine List.mem_filter.mpr ⟨hu, ?_⟩
    have hc : ((s.db.filter (fun v => isExpiredRow now v)).map
        (fun v => v.shortCode)).contains u.shortCode = false := by
      cases hb : ((s.db.filter (fun v => isExpiredRow now v)).map
          (fun v => v.shortCode)).contains u.shortCode with
      | false => rfl
      | true => exact absurd ((contains_iff_mem _ _).mp hb) hnot
    rw [hc]
    rfl

/-- Witness for C9 (amended): at time 3 the record expiring at 5 is kept in
both layers and the gauge matches the cache size. -/
theorem c9_amended_reaper_witness :
    wExp ∈ wSExp.db ∧ isExpiredRow 3 wExp = false ∧
    wExp ∈ (removeExpiredURLs 3 wSExp).db ∧
    wExp ∈ wSExp.cache ∧
    ¬ wExp.shortCode ∈ ((wSExp.db.filter (fun v => isExpiredRow 3 v)).map
      (fun v => v.shortCode)) ∧
    wExp ∈ (removeExpiredURLs 3 wSExp).cache ∧
    (removeExpiredURLs 3 wSExp).gauge = (removeExpiredURLs 3 wSExp).cache.length := by
  have h := c9_amended_reaper 3 wSExp
  exact ⟨by decide, by decide, h.2.1 wExp (by decide) (by decide), by decide, by decide,
    h.2.2.2.2.1 wExp (by decide) (by decide), h.2.2.2.2.2⟩
